import Mathlib

/-!
Verification of the congress-data scripts: a shallow embedding in Lean of the
six Python scripts (CSV → JSON exporters `migration_000001.py` and
`migration_000002.py`, the Markdown generator `congress_md_file_generator.py`,
the headshot-URL resolver `migration_000003.py`, the log archiver
`migration_000004.py`, and the headshot downloader `migration_000005.py`),
together with theorems settling the specified properties.

Strings are embedded as `String`/`List Char`.  Character-class predicates
(`\w`, `\s`, `str.isalnum`, `str.lower`) are modelled at their ASCII meaning,
which covers every character class the scripts distinguish.  Filesystem state
is modelled explicitly: a directory listing is a `List String` of filenames and
a file store is an association list from path to contents.  Network calls are
modelled by passing each script the outcome of its HTTP fetches as an explicit
argument (`Except` for a request that can raise, `Option` for a lookup that
can fail).
-/

/-! ### Character helpers (ASCII models of the Python character classes) -/

/-- ASCII decimal digit, via the code point. -/
def pyDigitChar (c : Char) : Bool :=
  decide (48 ≤ c.toNat ∧ c.toNat ≤ 57)

/-- Python `str.isalnum` on one character (ASCII): digit, upper or lower letter. -/
def pyAlnumChar (c : Char) : Bool :=
  decide ((48 ≤ c.toNat ∧ c.toNat ≤ 57) ∨ (65 ≤ c.toNat ∧ c.toNat ≤ 90) ∨
    (97 ≤ c.toNat ∧ c.toNat ≤ 122))

/-- Python `\s` (ASCII): space, tab, newline, carriage return, vertical tab, form feed. -/
def pySpace (c : Char) : Bool :=
  c = ' ' || c = '\t' || c = '\n' || c = '\r' || c = '\x0b' || c = '\x0c'

/-- Python `\w` (ASCII): letters, digits and underscore. -/
def pyWordChar (c : Char) : Bool :=
  pyAlnumChar c || c = '_'

/-- Python `str.lower` on one character (ASCII): map `A`-`Z` to `a`-`z`. -/
def pyLowerChar (c : Char) : Char :=
  if 65 ≤ c.toNat ∧ c.toNat ≤ 90 then Char.ofNat (c.toNat + 32) else c

/-- Decimal digit character for a value below ten. -/
def decDigitChar (n : Nat) : Char := Char.ofNat (48 + n)

/-- Decimal rendering of a natural number, as Python `str(n)` / an f-string
renders a nonnegative integer. -/
def decDigits (n : Nat) : List Char :=
  if _h : n < 10 then [decDigitChar n]
  else decDigits (n / 10) ++ [decDigitChar (n % 10)]
decreasing_by exact Nat.div_lt_self (by omega) (by omega)

/-- Python `str.zfill`: left-pad with `0` to the requested length.  (The
numbers padded by the scripts are nonnegative, so the sign handling of
`zfill` never fires.) -/
def zfill (width : Nat) (s : List Char) : List Char :=
  List.replicate (width - s.length) '0' ++ s

/-- Numeric value of a digit string (the value `int()` gives it). -/
def digitsVal (acc : Nat) (l : List Char) : Nat :=
  l.foldl (fun a c => a * 10 + (c.toNat - 48)) acc

/-- Python `zero_pad_number` from `migration_000001.py` / `migration_000002.py`:
`str(num).zfill(length)`. -/
def zero_pad_number (num : Nat) (length : Nat) : String :=
  String.mk (zfill length (decDigits num))

/-! ### Regex-search model

The scripts extract file numbers with `re.search` patterns of the shape
`LITERAL(\d+)LITERAL` (for example `person_(\d+)\.json`).  `re.search` scans
for the leftmost start position where the literal head matches, a nonempty
greedy digit run follows, and the literal tail follows the run.  Because the
tail begins with a non-digit, greedy matching of `\d+` with backtracking is
equivalent to taking the maximal digit run.  `scanNumber` implements exactly
that scan and yields the captured number. -/

def scanNumber (head tail : List Char) : List Char → Option Nat
  | [] => none
  | c :: rest =>
    if head.isPrefixOf (c :: rest) then
      let after := (c :: rest).drop head.length
      let run := after.takeWhile (fun d => pyDigitChar d)
      if run ≠ [] ∧ tail.isPrefixOf (after.drop run.length) then
        some (digitsVal 0 run)
      else
        scanNumber head tail rest
    else
      scanNumber head tail rest

/-- Does `pat` occur as a contiguous subsequence (Python `in` on strings)? -/
def hasSeq (pat : List Char) : List Char → Bool
  | [] => pat.isEmpty
  | c :: rest => pat.isPrefixOf (c :: rest) || hasSeq pat rest

/-- Python `str.startswith`. -/
def pyStartsWith (pat s : String) : Bool := pat.data.isPrefixOf s.data

/-- Python `in` on strings. -/
def pyContains (pat s : String) : Bool := hasSeq pat.data s.data

/-- Python `str.isdigit` (ASCII): nonempty and all digits. -/
def pyIsDigit (s : String) : Bool := !s.data.isEmpty && s.data.all (fun c => pyDigitChar c)

/-! ### The three filename sanitizers -/

/-- One character of the Markdown generator's sanitization
(`congress_md_file_generator.py` line 118):
`name.replace(' ', '_').replace(',', '').replace('.', '')`.
The three sequential single-character replacements are equivalent to this
character-wise map because none of the replacements introduces a character
that a later replacement targets. -/
def mdSanitizeChar (c : Char) : List Char :=
  if c = ' ' then ['_'] else if c = ',' then [] else if c = '.' then [] else [c]

/-- The Markdown generator's filename sanitization, on the character list. -/
def mdSanitize : List Char → List Char
  | [] => []
  | c :: rest => mdSanitizeChar c ++ mdSanitize rest

/-- One character of `clean_filename` (`migration_000001.py` /
`migration_000002.py` lines 6-9):
`re.sub(r'[^\w\s]', '', name).replace(' ', '_').lower()`.
Each of the three stages acts character-wise, so their composition does too:
a character that is neither a word character nor whitespace is deleted, a
space becomes an underscore, everything else is lowered. -/
def cleanFilenameChar (c : Char) : List Char :=
  if pyWordChar c || pySpace c then
    (if c = ' ' then ['_'] else [pyLowerChar c])
  else []

/-- `clean_filename` on the character list. -/
def clean_filename : List Char → List Char
  | [] => []
  | c :: rest => cleanFilenameChar c ++ clean_filename rest

/-- One character of the downloader's safe name (`migration_000005.py`
line 49): `"".join([c if c.isalnum() else "_" for c in person_name]).lower()`.
The trailing `.lower()` acts character-wise on the joined string. -/
def safeNameChar (c : Char) : Char :=
  if pyAlnumChar c then pyLowerChar c else '_'

/-- The downloader's safe name, on the character list. -/
def safeName (l : List Char) : List Char := l.map safeNameChar

/-! ### CSV → JSON exporter (`migration_000001.py` and `migration_000002.py`)

A CSV row is modelled with one field per column the scripts read; a column
absent from the file corresponds to the empty string, matching the
`row.get(col, '')` default.  (`row['District']` and `row['Name']` are direct
indexes in the source and would raise `KeyError` on a CSV without those
columns; the model covers the CSVs on which the exporter runs, which have
them.) -/

structure Row where
  district : String
  name : String
  party : String
  personWikiUrl : String
  voteLakenRiley : String
  voteLakenRileyNotes : String
  voteLakenRileyPoints : String
  voteHR1968 : String
  vote1968Points : String
  sum : String
  districtWikiUrl : String
deriving DecidableEq, Repr

/-- The person JSON document the exporters write (the nested `votes` object is
flattened into one field per leaf). -/
structure PersonData where
  name : String
  district : String
  party : String
  person_wiki_url : String
  lakenRileyVote : String
  lakenRileyNotes : String
  lakenRileyPoints : String
  hr1968Vote : String
  hr1968Points : String
  total_points : String
deriving DecidableEq, Repr

/-- The position JSON document the exporters write. -/
structure PositionData where
  district : String
  district_wiki_url : String
  seat_holder : String
deriving DecidableEq, Repr

/-- A file write performed by an exporter: target filename and contents. -/
inductive WriteEvent where
  | person (filename : String) (data : PersonData)
  | position (filename : String) (data : PositionData)
deriving DecidableEq, Repr

/-- Loop state of `process_csv`: the `person_files` dict, the two counters,
and the current value of the Python local `position_filename` (relevant to
`migration_000001.py`, which does not refresh it on a duplicate-name row). -/
structure ExpState where
  personFiles : List (String × String)
  personCounter : Nat
  positionCounter : Nat
  positionFilename : String
deriving DecidableEq, Repr

/-- The row-skip test of both exporters (lines 33-35 / 72-74):
`not district or not name or district == 'District' or name == 'Name'`
causes a `continue`; `wellFormedRow` is the negation. -/
def wellFormedRow (row : Row) : Bool :=
  !(row.district = "" || row.name = "" ||
    row.district = "District" || row.name = "Name")

/-- The person document built from a row (identical in both exporters). -/
def mkPersonData (row : Row) (positionFilename : String) : PersonData :=
  { name := row.name
    district := positionFilename
    party := row.party
    person_wiki_url := row.personWikiUrl
    lakenRileyVote := row.voteLakenRiley
    lakenRileyNotes := row.voteLakenRileyNotes
    lakenRileyPoints := row.voteLakenRileyPoints
    hr1968Vote := row.voteHR1968
    hr1968Points := row.vote1968Points
    total_points := row.sum }

/-- The position document built from a row, given the `person_files` dict in
force at the write: `person_files.get(name, "vacant") if name else "vacant"`. -/
def mkPositionData (row : Row) (personFiles : List (String × String)) : PositionData :=
  { district := row.district
    district_wiki_url := row.districtWikiUrl
    seat_holder :=
      if row.name ≠ "" then ((personFiles.lookup row.name).getD "vacant") else "vacant" }

namespace Migration1

/-- One iteration of the row loop of `process_csv` in `migration_000001.py`
(lines 29-84).  Note the source computes `position_filename` only inside the
unseen-name branch; on a row whose name was already seen the position write
reuses the stale filename, which the state carries in `positionFilename`. -/
def step (st : ExpState) (row : Row) : ExpState × List WriteEvent :=
  if wellFormedRow row then
    match st.personFiles.lookup row.name with
    | none =>
      let personFilename := "person_" ++ zero_pad_number st.personCounter 6 ++ ".json"
      let positionFilename :=
        "congressional_representative_position_" ++ zero_pad_number st.positionCounter 4 ++ ".json"
      let personFiles := (row.name, personFilename) :: st.personFiles
      let pdata := mkPersonData row positionFilename
      let qdata := mkPositionData row personFiles
      ({ personFiles := personFiles
         personCounter := st.personCounter + 1
         positionCounter := st.positionCounter + 1
         positionFilename := positionFilename },
       [.person personFilename pdata, .position positionFilename qdata])
    | some _ =>
      let qdata := mkPositionData row st.personFiles
      ({ st with positionCounter := st.positionCounter + 1 },
       [.position st.positionFilename qdata])
  else (st, [])

/-- Initial loop state of `migration_000001.py` (lines 25-27): the counters
start at 1 regardless of what is already on disk. -/
def initState : ExpState :=
  { personFiles := [], personCounter := 1, positionCounter := 1, positionFilename := "" }

/-- `process_csv` of `migration_000001.py`, as the list of file writes it
performs on the given rows. -/
def process_csv (rows : List Row) : List WriteEvent :=
  (rows.foldl (fun (acc : ExpState × List WriteEvent) row =>
    let (st, evs) := step acc.1 row
    (st, acc.2 ++ evs)) (initState, [])).2

end Migration1

/-- `get_last_person_number` (`migration_000002.py` lines 15-29): over the
files matching the glob `person_*.json`, the maximum number captured by
`re.search(r'person_(\d+)\.json', basename)`, or 0.  The directory is given
as its list of basenames. -/
def get_last_person_number (dir : List String) : Nat :=
  let files := dir.filter (fun f =>
    "person_".data.isPrefixOf f.data && ".json".data.isSuffixOf f.data)
  let numbers := files.filterMap (fun f => scanNumber "person_".data ".json".data f.data)
  numbers.foldl max 0

/-- `get_last_position_number` (`migration_000002.py` lines 31-45): over the
files matching the glob `*_position_*.json`, the maximum number captured by
`re.search(r'position_(\d+)\.json', basename)`, or 0. -/
def get_last_position_number (dir : List String) : Nat :=
  let files := dir.filter (fun f =>
    hasSeq "_position_".data f.data && ".json".data.isSuffixOf f.data)
  let numbers := files.filterMap (fun f => scanNumber "position_".data ".json".data f.data)
  numbers.foldl max 0

namespace Migration2

/-- One iteration of the row loop of `process_csv` in `migration_000002.py`
(lines 68-126).  Unlike `migration_000001.py`, the position filename is
recomputed from the position counter on every row (line 112). -/
def step (st : ExpState) (row : Row) : ExpState × List WriteEvent :=
  if wellFormedRow row then
    let positionFilename := "senator_position_" ++ zero_pad_number st.positionCounter 4 ++ ".json"
    match st.personFiles.lookup row.name with
    | none =>
      let personFilename := "person_" ++ zero_pad_number st.personCounter 6 ++ ".json"
      let personFiles := (row.name, personFilename) :: st.personFiles
      let pdata := mkPersonData row positionFilename
      let qdata := mkPositionData row personFiles
      ({ personFiles := personFiles
         personCounter := st.personCounter + 1
         positionCounter := st.positionCounter + 1
         positionFilename := positionFilename },
       [.person personFilename pdata, .position positionFilename qdata])
    | some _ =>
      let qdata := mkPositionData row st.personFiles
      ({ st with positionCounter := st.positionCounter + 1
                 positionFilename := positionFilename },
       [.position positionFilename qdata])
  else (st, [])

/-- Initial loop state of `migration_000002.py` (lines 54-66): the counters
resume one past the highest numbers found on disk. -/
def initState (dir : List String) : ExpState :=
  { personFiles := []
    personCounter := get_last_person_number dir + 1
    positionCounter := get_last_position_number dir + 1
    positionFilename := "" }

/-- `process_csv` of `migration_000002.py`, as the list of file writes it
performs on the given rows, starting from the directory listing it scans. -/
def process_csv (dir : List String) (rows : List Row) : List WriteEvent :=
  (rows.foldl (fun (acc : ExpState × List WriteEvent) row =>
    let (st, evs) := step acc.1 row
    (st, acc.2 ++ evs)) (initState dir, [])).2

end Migration2

/-- The person writes among a list of write events. -/
def personWrites (evs : List WriteEvent) : List (String × PersonData) :=
  evs.filterMap (fun ev => match ev with
    | .person f d => some (f, d)
    | .position _ _ => none)

/-- The position writes among a list of write events. -/
def positionWrites (evs : List WriteEvent) : List (String × PositionData) :=
  evs.filterMap (fun ev => match ev with
    | .person _ _ => none
    | .position f d => some (f, d))

/-! ### Markdown generator (`congress_md_file_generator.py`)

A CSV row is modelled as the ordered association list of its header/value
pairs (a Python 3.7+ dict preserves insertion order, and the sniffing logic
iterates `row.keys()` in that order).  The file store for the output folder is
the association list of (relative filename, contents). -/

/-- A Markdown-generator CSV row: ordered (column header, value) pairs. -/
def MdRow := List (String × String)

/-- Python `row[k]` truthiness test combined with presence:
`k in row and row[k]`. -/
def rowTruthy (row : MdRow) (k : String) : Bool :=
  match List.lookup k row with
  | some v => v ≠ ""
  | none => false

/-- `row.get(k, '')`. -/
def rowGetD (row : MdRow) (k : String) : String :=
  (List.lookup k row).getD ""

/-- The first of the standard name columns that is present and truthy
(lines 63-67): `['Name', 'Full Name', 'Member', 'Congressperson']`. -/
def standardName (row : MdRow) : Option String :=
  (["Name", "Full Name", "Member", "Congressperson"].find? (fun k => rowTruthy row k)).map
    (fun k => (List.lookup k row).getD "")

/-- The senators-format key sniff (lines 73-80): the first key that is not
`Alabama`/`Republican`/`Democratic`, not all digits, and not starting with
`http`. -/
def senatorKey (row : MdRow) : Option String :=
  ((row.map Prod.fst).find? (fun k =>
    !(k = "Alabama" || k = "Republican" || k = "Democratic") &&
    !pyIsDigit k && !pyStartsWith "http" k))

/-- The senators-format state column (lines 85-88): the first key among
`Alabama`/`State`, read without a truthiness check. -/
def senatorDistrict (row : MdRow) : Option String :=
  ((row.map Prod.fst).find? (fun k => k = "Alabama" || k = "State")).map
    (fun k => (List.lookup k row).getD "")

/-- The representatives-format key sniff (lines 94-111).  The loop keeps the
*last* qualifying key for each role (no `break`): among keys that are not all
digits, do not start with `http` and contain neither `Republican` nor
`Democratic`, a key containing a digit is the district key and any other key
not in `['Republican', 'Democratic', 'Alabama']` is the name key. -/
def repKeys (row : MdRow) : Option String × Option String :=
  row.foldl (fun (acc : Option String × Option String) kv =>
    let k := kv.1
    if !pyIsDigit k && !pyStartsWith "http" k &&
       !pyContains "Republican" k && !pyContains "Democratic" k then
      if k.data.any (fun c => pyDigitChar c) then (acc.1, some k)
      else if !(k = "Republican" || k = "Democratic" || k = "Alabama") then (some k, acc.2)
      else acc
    else acc) (none, none)

/-- The name/district extraction of `process_congressional_data`
(lines 59-111), returning `none` for the name when the row is skipped with
the could-not-find-name warning.  All assignments of `name` in the source
guard on truthiness, so an extracted name is nonempty. -/
def extractNameDistrict (inputFile : String) (row : MdRow) : Option String × Option String :=
  let name0 := standardName row
  let afterSen : Option String × Option String :=
    if name0.isNone && pyContains "Senators" inputFile then
      match senatorKey row with
      | some k =>
        if rowTruthy row k then
          ((List.lookup k row), senatorDistrict row)
        else (none, none)
      | none => (none, none)
    else (name0, none)
  if afterSen.1.isNone && pyContains "Representatives" inputFile then
    let (repKey, districtKey) := repKeys row
    let name := match repKey with
      | some k => if rowTruthy row k then List.lookup k row else none
      | none => none
    let district := match districtKey with
      | some k => if rowTruthy row k then List.lookup k row else none
      | none => none
    (name, district)
  else afterSen

/-- The first `row.items()` value whose key starts with `http` and whose
value contains `wikipedia` (senators branch, lines 137-140). -/
def senWikiLink (row : MdRow) : String :=
  ((row.find? (fun kv => pyStartsWith "http" kv.1 && pyContains "wikipedia" kv.2)).map
    Prod.snd).getD ""

/-- The first `row.items()` value whose key starts with `http`, whose value
contains `wikipedia` and does not contain `district` (representatives branch,
lines 156-159). -/
def repWikiLink (row : MdRow) : String :=
  ((row.find? (fun kv => pyStartsWith "http" kv.1 && pyContains "wikipedia" kv.2 &&
      !pyContains "district" kv.2)).map Prod.snd).getD ""

/-- The first `row.items()` value whose key starts with `http` and whose
value contains `district` (lines 170-174). -/
def repDistrictLink (row : MdRow) : String :=
  ((row.find? (fun kv => pyStartsWith "http" kv.1 && pyContains "district" kv.2)).map
    Prod.snd).getD ""

/-- The Markdown body built for one member (lines 127-181). -/
def mdContent (inputFile : String) (row : MdRow) (name : String)
    (district : Option String) : String :=
  let contentHead := "# " ++ name ++ "\n\n"
  if pyContains "Senators" inputFile then
    let state := rowGetD row "Alabama"
    let party := rowGetD row "Republican"
    let link := senWikiLink row
    contentHead ++
      (if state ≠ "" then "**State**: " ++ state ++ "\n\n" else "") ++
      (if party ≠ "" then "**Party**: " ++ party ++ "\n\n" else "") ++
      (if link ≠ "" then "**Wikipedia**: [" ++ link ++ "](" ++ link ++ ")\n\n" else "")
  else if pyContains "Representatives" inputFile then
    let party := rowGetD row "Republican"
    let link := repWikiLink row
    let districtLink := repDistrictLink row
    let districtStr := district.getD ""
    contentHead ++
      (if districtStr ≠ "" then "**District**: " ++ districtStr ++ "\n\n" else "") ++
      (if party ≠ "" then "**Party**: " ++ party ++ "\n\n" else "") ++
      (if link ≠ "" then "**Wikipedia**: [" ++ link ++ "](" ++ link ++ ")\n\n" else "") ++
      (if districtLink ≠ "" then "**District Info**: [" ++ districtLink ++ "](" ++ districtLink ++ ")\n\n" else "")
  else
    contentHead ++ String.join (row.map (fun kv =>
      if !(kv.1 = "Name" || kv.1 = "Full Name" || kv.1 = "Member" || kv.1 = "Congressperson") &&
         kv.2 ≠ "" then
        "**" ++ kv.1 ++ "**: " ++ kv.2 ++ "\n\n"
      else ""))

/-- One row of `process_congressional_data` (lines 58-187) as a transformer
of the output-folder file store (association list of filename ↦ contents):
extract the name (skip the row if none), sanitize it into `<name>.md`, skip
if that file exists, otherwise write the Markdown body.  The `district`
binding feeds the districts branch of the content builder. -/
def processRowMdAux (inputFile : String) (fs : List (String × String)) (row : MdRow) :
    Option String → Option String → List (String × String)
  | none, _ => fs
  | some n, district =>
    if n = "" then fs
    else
      match List.lookup (String.mk (mdSanitize n.data) ++ ".md") fs with
      | some _ => fs
      | none => (String.mk (mdSanitize n.data) ++ ".md",
          mdContent inputFile row n district) :: fs

def processRowMd (inputFile : String) (fs : List (String × String)) (row : MdRow) :
    List (String × String) :=
  processRowMdAux inputFile fs row (extractNameDistrict inputFile row).1
    (extractNameDistrict inputFile row).2

/-- `process_congressional_data` over the list of CSV rows. -/
def process_congressional_data (inputFile : String) (rows : List MdRow)
    (fs : List (String × String)) : List (String × String) :=
  rows.foldl (processRowMd inputFile) fs

/-! ### Headshot-URL resolver (`migration_000003.py`)

The two HTTP fetches of `get_headshot_url` (the Wikipedia article and,
in the fallback, the Commons file page) are modelled by handing the function
their outcomes: `Except` distinguishes a response from a raised exception
(connection error or `raise_for_status`).  The parsed documents keep only
the pieces the selectors touch. -/

/-- The `img` element inside the image-description link: the attributes the
script reads with `.get(...)`. -/
structure ImgEl where
  src : Option String
  dataFileWidth : Option String
  dataFileHeight : Option String

/-- The `a.mw-file-description` element: its `href` attribute and the `img`
element found inside it. -/
structure LinkEl where
  href : Option String
  img : Option ImgEl

/-- A fetched Wikipedia article, reduced to the one selector the script
applies: `soup.select_one('a.mw-file-description')`. -/
structure WikiPage where
  mwFileDescription : Option LinkEl

/-- A fetched Commons file page, reduced to the selector
`'.fullImageLink a'` and its `href`. -/
structure CommonsPage where
  fullImageLinkHref : Option String

/-- The outcomes of the resolver's possible HTTP requests. -/
structure FetchEnv where
  wiki : Except String WikiPage
  commons : Except String CommonsPage

/-- Python `os.path.basename`: the part after the last `/`. -/
def pyBasename (s : String) : String :=
  ((s.splitOn "/").getLast?).getD ""

/-- `if src.startswith('//'): return f"https:{src}"` — protocol completion
applied to the thumbnail/Commons URLs before returning them. -/
def normalizeProtocol (s : String) : String :=
  if pyStartsWith "//" s then "https:" ++ s else s

/-- Backtracking attempt for `re.search(r'(/[^/]+\.jpg)', src)` at one `/`:
`run` is the maximal slash-free run after the slash, `afterRun` the rest of
the string; `k` counts down from the greedy maximum.  On success the captured
group is the slash, the `k` matched characters and the literal `.jpg`. -/
def jpgTryK (run afterRun : List Char) : Nat → Option (List Char)
  | 0 => none
  | k + 1 =>
    if ".jpg".data.isPrefixOf (run.drop (k + 1) ++ afterRun) then
      some ('/' :: run.take (k + 1) ++ ".jpg".data)
    else
      jpgTryK run afterRun k

/-- `re.search(r'(/[^/]+\.jpg)', src)` (line 80): leftmost `/` followed by at
least one non-`/` character and then `.jpg`, with the greedy `[^/]+`
backtracking from the maximal run. -/
def searchJpg : List Char → Option (List Char)
  | [] => none
  | c :: rest =>
    match (if c = '/' then
             jpgTryK (rest.takeWhile (fun d => d ≠ '/'))
               (rest.dropWhile (fun d => d ≠ '/'))
               (rest.takeWhile (fun d => d ≠ '/')).length
           else none) with
    | some g => some g
    | none => searchJpg rest

/-- The fallback URL constructed from the filename when the Commons page does
not yield one (lines 112-114). -/
def constructedCommonsUrl (fileName : String) : String :=
  let enc := fileName.replace " " "_"
  "https://upload.wikimedia.org/wikipedia/commons/thumb/" ++
    enc.take 1 ++ "/" ++ enc.take 2 ++ "/" ++ enc

/-- The `try:` body of `get_headshot_url` (`migration_000003.py`
lines 36-132), with the fetch outcomes supplied by `env`.  `.error`
propagates an uncaught exception out of the body (the Commons fetch has its
own inner `try`, so its failure does not propagate). -/
def get_headshot_url_body (env : FetchEnv) : Except String (Option String) :=
  match env.wiki with
  | .error e => .error e
  | .ok page =>
    match page.mwFileDescription with
    | none => .ok none
    | some link =>
      match link.href with
      | none => .ok none
      | some href =>
        if href = "" then .ok none
        else
          match link.img with
          | none => .ok none
          | some img =>
            match img.src with
            | none => .ok none
            | some src =>
              if src = "" then .ok none
              else
                match searchJpg src.data with
                | none =>
                  let fileName := (pyBasename href).replace "File:" ""
                  if fileName = "" then .ok (some (normalizeProtocol src))
                  else
                    match env.commons with
                    | .ok cp =>
                      match cp.fullImageLinkHref with
                      | some fu =>
                        if fu ≠ "" then .ok (some (normalizeProtocol fu))
                        else .ok (some (constructedCommonsUrl fileName))
                      | none => .ok (some (constructedCommonsUrl fileName))
                    | .error _ => .ok (some (constructedCommonsUrl fileName))
                | some basePath =>
                  let srcParts := src.splitOn "/"
                  if 4 ≤ srcParts.length then
                    let hashDir := srcParts.getD (srcParts.length - 4) "" ++ "/" ++
                      srcParts.getD (srcParts.length - 3) ""
                    .ok (some ("https://upload.wikimedia.org/wikipedia/commons/" ++
                      hashDir ++ String.mk basePath))
                  else .ok (some (normalizeProtocol src))

/-- `get_headshot_url` (`migration_000003.py` lines 20-136): empty URL short
circuit, then the `try:` body with every exception caught and mapped to
`None`. -/
def get_headshot_url (env : FetchEnv) (wiki_url : String) : Option String :=
  if wiki_url = "" then none
  else
    match get_headshot_url_body env with
    | .error _ => none
    | .ok r => r

/-! ### JSON patchers (`migration_000003.py` and `migration_000005.py`)

A person JSON document is modelled as an ordered association list of string
fields (the only values the patchers touch are strings).  Each per-file loop
body becomes a function from the file's read outcome and the outcome of its
enrichment call to the pair (contents written back, if any; whether the
enrichment call — the network — was reached).  A `none` first component means
the file on disk is left untouched. -/

/-- A person record as an ordered field list. -/
abbrev PersonJson := List (String × String)

/-- Python dict assignment `d[k] = v`: update in place when the key exists,
append otherwise. -/
def setKey (d : PersonJson) (k v : String) : PersonJson :=
  if (List.lookup k d).isSome then
    d.map (fun kv => if kv.1 = k then (k, v) else kv)
  else d ++ [(k, v)]

/-- `k in d and d[k]` — presence plus truthiness. -/
def jsonTruthy (d : PersonJson) (k : String) : Bool :=
  match List.lookup k d with
  | some v => v ≠ ""
  | none => false

/-- The loop body of `process_person_files` (`migration_000003.py`
lines 153-191) for one person file.  `readResult` is the outcome of opening
and JSON-decoding the file; `resolve` is `get_headshot_url`.  Returns the
contents written back (`none` when the file is not rewritten: read error,
`headshot_url` already present, missing or empty `person_wiki_url`, or no
headshot found) and whether `get_headshot_url` was invoked. -/
def process_person_file (readResult : Except String PersonJson)
    (resolve : String → Option String) : Option PersonJson × Bool :=
  match readResult with
  | .error _ => (none, false)
  | .ok d =>
    if jsonTruthy d "headshot_url" then (none, false)
    else
      match List.lookup "person_wiki_url" d with
      | none => (none, false)
      | some w =>
        if w = "" then (none, false)
        else
          match resolve w with
          | some u => (some (setKey d "headshot_url" u), true)
          | none => (none, true)

/-! #### Headshot downloader (`migration_000005.py`) -/

/-- Drop everything up to and through the first occurrence of `pat`
(`none` when `pat` does not occur). -/
def afterSeq (pat : List Char) : List Char → Option (List Char)
  | [] => if pat.isEmpty then some [] else none
  | c :: rest =>
    if pat.isPrefixOf (c :: rest) then some ((c :: rest).drop pat.length)
    else afterSeq pat rest

/-- `urlparse(url).path` for the URLs the downloader receives: the part after
the scheme and network location, cut at the query or fragment. -/
def urlPath (url : String) : String :=
  match afterSeq "://".data url.data with
  | some rest =>
    String.mk ((rest.dropWhile (fun c => c != '/')).takeWhile
      (fun c => !(c = '?' || c = '#')))
  | none => String.mk (url.data.takeWhile (fun c => !(c = '?' || c = '#')))

/-- The extension component of `os.path.splitext`: the suffix from the last
dot of the basename, unless every character before that dot in the basename
is itself a dot. -/
def pySplitextExt (p : String) : String :=
  let b := (pyBasename p).data
  if b.contains '.' then
    let afterRev := b.reverse.takeWhile (fun c => c != '.')
    let ext := '.' :: afterRev.reverse
    let stem := b.take (b.length - ext.length)
    if stem.any (fun c => c != '.') then String.mk ext else ""
  else ""

/-- The filename candidates tried by `download_headshot`'s collision loop:
the plain `safe_name + extension` first, then
`f"{safe_name}_{counter}{extension}"` for `counter = 1, 2, ...`. -/
def headshotCandidate (safe ext : List Char) : Nat → List Char
  | 0 => safe ++ ext
  | k + 1 => safe ++ '_' :: decDigits (k + 1) ++ ext

/-- The `while os.path.exists(image_path)` collision loop
(`migration_000005.py` lines 67-72): starting at candidate `k`, return the
first candidate not among the existing filenames.  The Python loop runs
unboundedly; because only finitely many files exist it always exits, and the
fuel `existing.length + 1` is proved sufficient below. -/
def freshLoop (existing : List String) (safe ext : List Char) : Nat → Nat → List Char
  | 0, k => headshotCandidate safe ext k
  | fuel + 1, k =>
    if existing.contains (String.mk (headshotCandidate safe ext k)) then
      freshLoop existing safe ext fuel (k + 1)
    else headshotCandidate safe ext k

/-- `download_headshot` (`migration_000005.py` lines 23-85).  `resp` is the
outcome of the HTTP GET (its `raise_for_status`); `existing` lists the
filenames already in the headshots directory.  Returns the basename the image
is saved under (`none` when the URL is empty or the request raised; the
Python return value is this basename prefixed by the relative directory
path). -/
def download_headshot (resp : Except String Unit) (url person_name : String)
    (existing : List String) : Option String :=
  if url = "" then none
  else
    match resp with
    | .error _ => none
    | .ok _ =>
      let safe := safeName person_name.data
      let ext0 := pySplitextExt (urlPath url)
      let ext := if ext0 = "" || 5 < ext0.length then ".jpg".data else ext0.data
      some (String.mk (freshLoop existing safe ext (existing.length + 1) 0))

/-- The loop body of `download_and_update_headshots` (`migration_000005.py`
lines 103-144) for one person file.  `download` abstracts
`download_headshot url person_name`; returns the contents written back
(`none` when the file is not rewritten) and whether the download — the
network — was reached. -/
def download_and_update_step (readResult : Except String PersonJson)
    (download : String → String → Option String) : Option PersonJson × Bool :=
  match readResult with
  | .error _ => (none, false)
  | .ok d =>
    if jsonTruthy d "headshot_local_url" then (none, false)
    else
      match List.lookup "headshot_url" d with
      | none => (none, false)
      | some u =>
        if u = "" then (none, false)
        else
          let name := (List.lookup "name" d).getD "unknown_person"
          match download u name with
          | some lp => (some (setKey d "headshot_local_url" lp), true)
          | none => (none, true)

/-! ### Log archiver (`migration_000004.py`) -/

/-- One iteration of the highest-number loop of `setup_log_directory`
(lines 37-41): `highest_number = max(highest_number, number)` when the regex
matches, unchanged otherwise. -/
def migFoldStep (h : Nat) (f : String) : Nat :=
  match scanNumber "migration_".data ".log".data f.data with
  | some n => max h n
  | none => h

/-- The highest-number scan of `setup_log_directory` (lines 33-41): over
files matching the glob `migration_*.log`, fold the numbers captured by
`re.search(r'migration_(\d+)\.log', basename)` with `max`, starting at 0. -/
def highestMigrationNumber (logDir : List String) : Nat :=
  (logDir.filter (fun f =>
      "migration_".data.isPrefixOf f.data && ".log".data.isSuffixOf f.data)).foldl
    migFoldStep 0

/-- `setup_log_directory` (`migration_000004.py` lines 6-52): when the
current log file exists, the archived name it is renamed to; `none` (no move,
no file created) when it does not.  `logDir` lists the filenames already in
the `logs` directory. -/
def setup_log_directory (sourceExists : Bool) (logDir : List String) : Option String :=
  if !sourceExists then none
  else
    some ("migration_" ++ String.mk (zfill 6 (decDigits (highestMigrationNumber logDir + 1))) ++
      ".log")

/-! ## Helper lemmas -/

theorem charToNat_ofNat {n : Nat} (h : n < 55296) : (Char.ofNat n).toNat = n := by
  have hv : n.isValidChar := Or.inl h
  rw [Char.ofNat, dif_pos hv]
  rfl

theorem pyLowerChar_toNat (c : Char) :
    (pyLowerChar c).toNat = if 65 ≤ c.toNat ∧ c.toNat ≤ 90 then c.toNat + 32 else c.toNat := by
  unfold pyLowerChar
  split
  · next hc => exact charToNat_ofNat (by omega)
  · rfl

theorem char_ne_of_toNat_ne {c d : Char} (h : c.toNat ≠ d.toNat) : c ≠ d :=
  fun he => h (he ▸ rfl)

theorem pyLowerChar_eq_self {c : Char} (h : ¬(65 ≤ c.toNat ∧ c.toNat ≤ 90)) :
    pyLowerChar c = c := by
  unfold pyLowerChar
  exact if_neg h

theorem pyLowerChar_idem (c : Char) : pyLowerChar (pyLowerChar c) = pyLowerChar c := by
  by_cases h : 65 ≤ c.toNat ∧ c.toNat ≤ 90
  · apply pyLowerChar_eq_self
    rw [pyLowerChar_toNat, if_pos h]
    omega
  · rw [pyLowerChar_eq_self h, pyLowerChar_eq_self h]

theorem pyAlnumChar_iff (c : Char) : pyAlnumChar c = true ↔
    ((48 ≤ c.toNat ∧ c.toNat ≤ 57) ∨ (65 ≤ c.toNat ∧ c.toNat ≤ 90) ∨
      (97 ≤ c.toNat ∧ c.toNat ≤ 122)) := by
  simp [pyAlnumChar]

theorem char_not_special_of_toNat {d : Char}
    (h : d.toNat ≠ 32 ∧ d.toNat ≠ 44 ∧ d.toNat ≠ 46 ∧ d.toNat ≠ 40 ∧ d.toNat ≠ 41) :
    (!(d = ' ' || d = ',' || d = '.' || d = '(' || d = ')')) = true := by
  simp only [Bool.not_eq_true', Bool.or_eq_false_iff, decide_eq_false_iff_not]
  refine ⟨⟨⟨⟨char_ne_of_toNat_ne h.1, char_ne_of_toNat_ne h.2.1⟩,
    char_ne_of_toNat_ne h.2.2.1⟩, char_ne_of_toNat_ne h.2.2.2.1⟩,
    char_ne_of_toNat_ne h.2.2.2.2⟩

theorem mdSanitize_append (l1 l2 : List Char) :
    mdSanitize (l1 ++ l2) = mdSanitize l1 ++ mdSanitize l2 := by
  induction l1 with
  | nil => rfl
  | cons c rest ih => simp [mdSanitize, ih]

theorem mdSanitizeChar_idem (c : Char) : mdSanitize (mdSanitizeChar c) = mdSanitizeChar c := by
  unfold mdSanitizeChar
  split
  · decide
  · split
    · decide
    · split
      · decide
      · next h1 h2 h3 =>
        show mdSanitizeChar c ++ mdSanitize [] = [c]
        unfold mdSanitizeChar
        rw [if_neg h1, if_neg h2, if_neg h3]
        rfl

theorem mdSanitize_idem (l : List Char) : mdSanitize (mdSanitize l) = mdSanitize l := by
  induction l with
  | nil => rfl
  | cons c rest ih =>
    show mdSanitize (mdSanitizeChar c ++ mdSanitize rest) = mdSanitizeChar c ++ mdSanitize rest
    rw [mdSanitize_append, mdSanitizeChar_idem, ih]

theorem mdSanitize_no_space_comma_period (l : List Char) :
    (mdSanitize l).all (fun c => !(c = ' ' || c = ',' || c = '.')) = true := by
  induction l with
  | nil => rfl
  | cons c rest ih =>
    show (mdSanitizeChar c ++ mdSanitize rest).all _ = true
    rw [List.all_append]
    refine (Bool.and_eq_true _ _).mpr ⟨?_, ih⟩
    unfold mdSanitizeChar
    split
    · decide
    · split
      · decide
      · split
        · decide
        · next h1 h2 h3 =>
          simp only [List.all_cons, List.all_nil, Bool.and_true,
            Bool.not_eq_true', Bool.or_eq_false_iff, decide_eq_false_iff_not]
          exact ⟨⟨h1, h2⟩, h3⟩

theorem clean_filename_append (l1 l2 : List Char) :
    clean_filename (l1 ++ l2) = clean_filename l1 ++ clean_filename l2 := by
  induction l1 with
  | nil => rfl
  | cons c rest ih => simp [clean_filename, ih]

theorem char_eq_of_toNat_eq {c d : Char} (h : c.toNat = d.toNat) : c = d := by
  have hc := Char.ofNat_toNat c
  rw [← hc, h, Char.ofNat_toNat]

theorem char_toNat_ne {c d : Char} (h : c ≠ d) : c.toNat ≠ d.toNat :=
  fun hn => h (char_eq_of_toNat_eq hn)

theorem pySpace_cases {c : Char} (h : pySpace c = true) :
    c = ' ' ∨ c = '\t' ∨ c = '\n' ∨ c = '\r' ∨ c = '\x0b' ∨ c = '\x0c' := by
  have h2 := h
  simp only [pySpace, Bool.or_eq_true, decide_eq_true_eq] at h2
  tauto

theorem pyWordChar_cases {c : Char} (h : pyWordChar c = true) :
    (48 ≤ c.toNat ∧ c.toNat ≤ 57) ∨ (65 ≤ c.toNat ∧ c.toNat ≤ 90) ∨
      (97 ≤ c.toNat ∧ c.toNat ≤ 122) ∨ c.toNat = 95 := by
  rcases Bool.or_eq_true _ _ |>.mp h with ha | hu
  · rcases (pyAlnumChar_iff c).mp ha with h1 | h2 | h3
    · exact Or.inl h1
    · exact Or.inr (Or.inl h2)
    · exact Or.inr (Or.inr (Or.inl h3))
  · have : c = '_' := by simpa using hu
    subst this
    exact Or.inr (Or.inr (Or.inr rfl))

theorem pyLowerChar_ne_space {c : Char} (hsp : c ≠ ' ') : pyLowerChar c ≠ ' ' := by
  intro hEq
  have h32 : (pyLowerChar c).toNat = 32 := by rw [hEq]; rfl
  rw [pyLowerChar_toNat] at h32
  split at h32
  · omega
  · exact char_toNat_ne hsp h32

theorem pyWordSpace_pyLowerChar {c : Char} (hws : (pyWordChar c || pySpace c) = true) :
    (pyWordChar (pyLowerChar c) || pySpace (pyLowerChar c)) = true := by
  rcases Bool.or_eq_true _ _ |>.mp hws with hw | hs
  · rcases pyWordChar_cases hw with h1 | h2 | h3 | h4
    · rw [pyLowerChar_eq_self (by omega)]; exact hws
    · have ht : (pyLowerChar c).toNat = c.toNat + 32 := by
        rw [pyLowerChar_toNat, if_pos h2]
      apply Bool.or_eq_true _ _ |>.mpr
      left
      apply Bool.or_eq_true _ _ |>.mpr
      left
      rw [pyAlnumChar_iff, ht]
      omega
    · rw [pyLowerChar_eq_self (by omega)]; exact hws
    · rw [pyLowerChar_eq_self (by omega)]; exact hws
  · rcases pySpace_cases hs with h | h | h | h | h | h <;> subst h <;> decide

theorem cleanFilenameChar_idem (c : Char) :
    clean_filename (cleanFilenameChar c) = cleanFilenameChar c := by
  by_cases hws : (pyWordChar c || pySpace c) = true
  · by_cases hsp : c = ' '
    · subst hsp; decide
    · have hA := pyWordSpace_pyLowerChar hws
      have hB := pyLowerChar_ne_space hsp
      unfold cleanFilenameChar
      rw [if_pos hws, if_neg hsp]
      show cleanFilenameChar (pyLowerChar c) ++ clean_filename [] = [pyLowerChar c]
      unfold cleanFilenameChar
      rw [if_pos hA, if_neg hB, pyLowerChar_idem]
      rfl
  · unfold cleanFilenameChar
    rw [if_neg hws]
    rfl

theorem clean_filename_idem (l : List Char) :
    clean_filename (clean_filename l) = clean_filename l := by
  induction l with
  | nil => rfl
  | cons c rest ih =>
    show clean_filename (cleanFilenameChar c ++ clean_filename rest) = _
    rw [clean_filename_append, cleanFilenameChar_idem, ih]
    rfl

theorem cleanFilenameChar_no_special (c : Char) :
    (cleanFilenameChar c).all
      (fun d => !(d = ' ' || d = ',' || d = '.' || d = '(' || d = ')')) = true := by
  by_cases hws : (pyWordChar c || pySpace c) = true
  · by_cases hsp : c = ' '
    · subst hsp; decide
    · unfold cleanFilenameChar
      rw [if_pos hws, if_neg hsp]
      show (!(_ : Bool) && true) = true
      rw [Bool.and_true]
      rcases Bool.or_eq_true _ _ |>.mp hws with hw | hs
      · rcases pyWordChar_cases hw with h1 | h2 | h3 | h4
        · rw [pyLowerChar_eq_self (by omega)]
          exact char_not_special_of_toNat (by omega)
        · have ht : (pyLowerChar c).toNat = c.toNat + 32 := by
            rw [pyLowerChar_toNat, if_pos h2]
          exact char_not_special_of_toNat (by omega)
        · rw [pyLowerChar_eq_self (by omega)]
          exact char_not_special_of_toNat (by omega)
        · rw [pyLowerChar_eq_self (by omega)]
          exact char_not_special_of_toNat (by omega)
      · rcases pySpace_cases hs with h | h | h | h | h | h <;> subst h <;> first
          | exact absurd rfl hsp
          | decide
  · unfold cleanFilenameChar
    rw [if_neg hws]
    rfl

theorem clean_filename_no_special (l : List Char) :
    (clean_filename l).all
      (fun d => !(d = ' ' || d = ',' || d = '.' || d = '(' || d = ')')) = true := by
  induction l with
  | nil => rfl
  | cons c rest ih =>
    show (cleanFilenameChar c ++ clean_filename rest).all _ = true
    rw [List.all_append]
    exact (Bool.and_eq_true _ _).mpr ⟨cleanFilenameChar_no_special c, ih⟩

theorem pyAlnumChar_pyLowerChar {c : Char} (h : pyAlnumChar c = true) :
    pyAlnumChar (pyLowerChar c) = true := by
  rcases (pyAlnumChar_iff c).mp h with h1 | h2 | h3
  · rw [pyLowerChar_eq_self (by omega)]; exact h
  · have ht : (pyLowerChar c).toNat = c.toNat + 32 := by
      rw [pyLowerChar_toNat, if_pos h2]
    rw [pyAlnumChar_iff, ht]
    omega
  · rw [pyLowerChar_eq_self (by omega)]; exact h

theorem safeNameChar_idem (c : Char) : safeNameChar (safeNameChar c) = safeNameChar c := by
  by_cases ha : pyAlnumChar c = true
  · unfold safeNameChar
    rw [if_pos ha, if_pos (pyAlnumChar_pyLowerChar ha), pyLowerChar_idem]
  · unfold safeNameChar
    rw [if_neg ha]
    decide

theorem safeName_idem (l : List Char) : safeName (safeName l) = safeName l := by
  induction l with
  | nil => rfl
  | cons c rest ih =>
    show safeNameChar (safeNameChar c) :: safeName (safeName rest) = _
    rw [safeNameChar_idem, ih]
    rfl

theorem safeNameChar_no_special (c : Char) :
    (!(safeNameChar c = ' ' || safeNameChar c = ',' || safeNameChar c = '.' ||
      safeNameChar c = '(' || safeNameChar c = ')')) = true := by
  by_cases ha : pyAlnumChar c = true
  · unfold safeNameChar
    rw [if_pos ha]
    rcases (pyAlnumChar_iff c).mp ha with h1 | h2 | h3
    · rw [pyLowerChar_eq_self (by omega)]
      exact char_not_special_of_toNat (by omega)
    · have ht : (pyLowerChar c).toNat = c.toNat + 32 := by
        rw [pyLowerChar_toNat, if_pos h2]
      exact char_not_special_of_toNat (by omega)
    · rw [pyLowerChar_eq_self (by omega)]
      exact char_not_special_of_toNat (by omega)
  · unfold safeNameChar
    rw [if_neg ha]
    decide

theorem safeName_no_special (l : List Char) :
    (safeName l).all
      (fun d => !(d = ' ' || d = ',' || d = '.' || d = '(' || d = ')')) = true := by
  induction l with
  | nil => rfl
  | cons c rest ih =>
    show (!(_ : Bool) && _) = true
    exact (Bool.and_eq_true _ _).mpr ⟨safeNameChar_no_special c, ih⟩

/-! ## Claim theorems -/

/-- C4, counterexample to the claim as stated: the Markdown generator's
sanitization (`name.replace(' ', '_').replace(',', '').replace('.', '')`,
`congress_md_file_generator.py` line 118) does not remove parentheses.  On
the name `"A, (B)."` — which contains a space, a comma, a period and both
parentheses — the sanitized output still contains `'('` and `')'`. -/
theorem mdSanitize_keeps_parentheses :
    mdSanitize "A, (B).".data = "A_(B)".data ∧
    '(' ∈ mdSanitize "A, (B).".data ∧ ')' ∈ mdSanitize "A, (B).".data := by
  refine ⟨by decide, by decide, by decide⟩

/-- C4 (amended): the Markdown generator's sanitization removes spaces,
commas and periods (but keeps parentheses) and is idempotent;
`clean_filename` (exporters) and the downloader's safe-name map remove
spaces, commas, periods and parentheses, and both are idempotent. -/
theorem sanitizers_special_free_and_idempotent :
    (∀ l : List Char, (mdSanitize l).all (fun c => !(c = ' ' || c = ',' || c = '.')) = true) ∧
    (∀ l : List Char, mdSanitize (mdSanitize l) = mdSanitize l) ∧
    (∀ l : List Char, (clean_filename l).all
      (fun c => !(c = ' ' || c = ',' || c = '.' || c = '(' || c = ')')) = true) ∧
    (∀ l : List Char, clean_filename (clean_filename l) = clean_filename l) ∧
    (∀ l : List Char, (safeName l).all
      (fun c => !(c = ' ' || c = ',' || c = '.' || c = '(' || c = ')')) = true) ∧
    (∀ l : List Char, safeName (safeName l) = safeName l) :=
  ⟨mdSanitize_no_space_comma_period, mdSanitize_idem, clean_filename_no_special,
    clean_filename_idem, safeName_no_special, safeName_idem⟩

/-- C5: the headshot URL resolver returns `none` rather than raising when the
fetched page has no `a.mw-file-description` element, and any exception raised
inside the resolver body (in particular a failed wiki fetch) is caught and
mapped to `none`. -/
theorem get_headshot_url_failure_none (env : FetchEnv) (url : String)
    (page : WikiPage) (e : String) :
    (env.wiki = Except.ok page → page.mwFileDescription = none →
      get_headshot_url env url = none) ∧
    (env.wiki = Except.error e → get_headshot_url env url = none) ∧
    (get_headshot_url_body env = Except.error e → get_headshot_url env url = none) := by
  obtain ⟨wk, cm⟩ := env
  refine ⟨?_, ?_, ?_⟩
  · intro hw hsel
    replace hw : wk = Except.ok page := hw
    subst hw
    obtain ⟨mfd⟩ := page
    replace hsel : mfd = none := hsel
    subst hsel
    unfold get_headshot_url
    split
    · rfl
    · rfl
  · intro hw
    replace hw : wk = Except.error e := hw
    subst hw
    unfold get_headshot_url
    split
    · rfl
    · rfl
  · intro hb
    unfold get_headshot_url
    split
    · rfl
    · rw [hb]

/-- C5 witness: a concrete environment whose wiki page lacks the selector
resolves to `none`. -/
theorem get_headshot_url_failure_none_witness :
    ({ wiki := Except.ok { mwFileDescription := none },
       commons := Except.error "offline" } : FetchEnv).wiki =
        Except.ok { mwFileDescription := none } ∧
    ({ mwFileDescription := none } : WikiPage).mwFileDescription = none ∧
    get_headshot_url
      { wiki := Except.ok { mwFileDescription := none }, commons := Except.error "offline" }
      "https://en.wikipedia.org/wiki/X" = none :=
  ⟨rfl, rfl,
    (get_headshot_url_failure_none
      { wiki := Except.ok { mwFileDescription := none }, commons := Except.error "offline" }
      "https://en.wikipedia.org/wiki/X" { mwFileDescription := none } "e").1 rfl rfl⟩

/-- C7: when an enrichment step fails, the person file is not rewritten.
For the resolver (`migration_000003.py`): an unreadable file, or
`get_headshot_url` returning `none`, leaves the record unwritten.  For the
downloader (`migration_000005.py`): an unreadable file, or a failed
download, leaves the record unwritten.  (`(none, b)` means no write-back;
the second component records whether the network step was reached.) -/
theorem enrichment_failure_leaves_file (e : String) (resolve : String → Option String)
    (download : String → String → Option String) (d : PersonJson) (w u : String) :
    (process_person_file (Except.error e) resolve = (none, false)) ∧
    (jsonTruthy d "headshot_url" = false → List.lookup "person_wiki_url" d = some w →
      w ≠ "" → resolve w = none →
      process_person_file (Except.ok d) resolve = (none, true)) ∧
    (download_and_update_step (Except.error e) download = (none, false)) ∧
    (jsonTruthy d "headshot_local_url" = false → List.lookup "headshot_url" d = some u →
      u ≠ "" → download u ((List.lookup "name" d).getD "unknown_person") = none →
      download_and_update_step (Except.ok d) download = (none, true)) := by
  refine ⟨rfl, ?_, rfl, ?_⟩
  · intro ht hw hne hres
    show (if jsonTruthy d "headshot_url" then ((none, false) : Option PersonJson × Bool)
      else match List.lookup "person_wiki_url" d with
        | none => (none, false)
        | some w => if w = "" then (none, false)
          else match resolve w with
            | some u => (some (setKey d "headshot_url" u), true)
            | none => (none, true)) = (none, true)
    rw [ht, hw]
    simp only [Bool.false_eq_true, if_false, if_neg hne, hres]
  · intro ht hu hne hdl
    show (if jsonTruthy d "headshot_local_url" then ((none, false) : Option PersonJson × Bool)
      else match List.lookup "headshot_url" d with
        | none => (none, false)
        | some u => if u = "" then (none, false)
          else match download u ((List.lookup "name" d).getD "unknown_person") with
            | some lp => (some (setKey d "headshot_local_url" lp), true)
            | none => (none, true)) = (none, true)
    rw [ht, hu]
    simp only [Bool.false_eq_true, if_false, if_neg hne, hdl]

/-- C7 witness: concrete failing enrichments leave concrete records
unwritten. -/
theorem enrichment_failure_leaves_file_witness :
    (jsonTruthy [("name", "A"), ("person_wiki_url", "/wiki/A")] "headshot_url" = false ∧
      List.lookup "person_wiki_url" [("name", "A"), ("person_wiki_url", "/wiki/A")] =
        some "/wiki/A" ∧
      ("/wiki/A" : String) ≠ "" ∧
      process_person_file (Except.ok [("name", "A"), ("person_wiki_url", "/wiki/A")])
        (fun _ => none) = (none, true)) ∧
    process_person_file (Except.error "bad json") (fun _ => none) = (none, false) :=
  ⟨⟨by decide, by decide, by decide,
    (enrichment_failure_leaves_file "e" (fun _ => none) (fun _ _ => none)
      [("name", "A"), ("person_wiki_url", "/wiki/A")] "/wiki/A" "u").2.1
      (by decide) (by decide) (by decide) rfl⟩,
   (enrichment_failure_leaves_file "bad json" (fun _ => none) (fun _ _ => none)
      [] "w" "u").1⟩

/-- C10: re-running an enrichment script skips an already-enriched record:
a truthy `headshot_url` (resolver) or `headshot_local_url` (downloader)
makes the loop body return without reaching the network and without
rewriting the file. -/
theorem enrichment_skips_enriched (resolve : String → Option String)
    (download : String → String → Option String) (d : PersonJson) :
    (jsonTruthy d "headshot_url" = true →
      process_person_file (Except.ok d) resolve = (none, false)) ∧
    (jsonTruthy d "headshot_local_url" = true →
      download_and_update_step (Except.ok d) download = (none, false)) := by
  constructor
  · intro ht
    show (if jsonTruthy d "headshot_url" then ((none, false) : Option PersonJson × Bool)
      else match List.lookup "person_wiki_url" d with
        | none => (none, false)
        | some w => if w = "" then (none, false)
          else match resolve w with
            | some u => (some (setKey d "headshot_url" u), true)
            | none => (none, true)) = (none, false)
    rw [ht]
    rfl
  · intro ht
    show (if jsonTruthy d "headshot_local_url" then ((none, false) : Option PersonJson × Bool)
      else match List.lookup "headshot_url" d with
        | none => (none, false)
        | some u => if u = "" then (none, false)
          else match download u ((List.lookup "name" d).getD "unknown_person") with
            | some lp => (some (setKey d "headshot_local_url" lp), true)
            | none => (none, true)) = (none, false)
    rw [ht]
    rfl

/-- C10 witness: a concrete already-enriched record is skipped by both
scripts. -/
theorem enrichment_skips_enriched_witness :
    (jsonTruthy [("headshot_url", "https://u/x.jpg")] "headshot_url" = true ∧
      process_person_file (Except.ok [("headshot_url", "https://u/x.jpg")])
        (fun _ => some "url") = (none, false)) ∧
    (jsonTruthy [("headshot_local_url", "h/x.jpg")] "headshot_local_url" = true ∧
      download_and_update_step (Except.ok [("headshot_local_url", "h/x.jpg")])
        (fun _ _ => some "p") = (none, false)) :=
  ⟨⟨by decide,
    (enrichment_skips_enriched (fun _ => some "url") (fun _ _ => some "p")
      [("headshot_url", "https://u/x.jpg")]).1 (by decide)⟩,
   ⟨by decide,
    (enrichment_skips_enriched (fun _ => some "url") (fun _ _ => some "p")
      [("headshot_local_url", "h/x.jpg")]).2 (by decide)⟩⟩

/-- C3, counterexample to the claim as stated: `process_congressional_data`
has no check for the name `Vacant` (in any capitalization).  A row whose
extracted name is the literal string `"Vacant"` is processed like any other
row: with an empty output folder it writes the Markdown file `Vacant.md`. -/
theorem vacant_row_writes_markdown :
    processRowMd "input.csv" [] [("Name", "Vacant")] = [("Vacant.md", "# Vacant\n\n")] ∧
    List.lookup "Vacant.md" (processRowMd "input.csv" [] [("Name", "Vacant")]) =
      some "# Vacant\n\n" := by
  exact ⟨rfl, rfl⟩

/-- C3 (amended): the Markdown generator does not skip rows named `Vacant`;
whenever a row's extracted name is `"Vacant"` and `Vacant.md` is not already
present, the generator writes `Vacant.md` for that row (only the
file-already-exists check can suppress the write). -/
theorem vacant_row_not_skipped (inputFile : String) (fs : List (String × String))
    (row : MdRow) (d : Option String)
    (hx : extractNameDistrict inputFile row = (some "Vacant", d))
    (hl : List.lookup "Vacant.md" fs = none) :
    processRowMd inputFile fs row =
      ("Vacant.md", mdContent inputFile row "Vacant" d) :: fs := by
  have h1 : (extractNameDistrict inputFile row).1 = some "Vacant" := by rw [hx]
  have h2 : (extractNameDistrict inputFile row).2 = d := by rw [hx]
  unfold processRowMd
  rw [h1, h2]
  have hfn : String.mk (mdSanitize "Vacant".data) ++ ".md" = "Vacant.md" := rfl
  simp only [processRowMdAux, hfn, hl, String.reduceEq, if_false]

/-- C3 witness: a concrete `Vacant` row against an empty folder. -/
theorem vacant_row_not_skipped_witness :
    extractNameDistrict "input.csv" [("Name", "Vacant")] = (some "Vacant", none) ∧
    List.lookup "Vacant.md" ([] : List (String × String)) = none ∧
    processRowMd "input.csv" [] [("Name", "Vacant")] =
      ("Vacant.md", mdContent "input.csv" [("Name", "Vacant")] "Vacant" none) :: [] :=
  ⟨rfl, rfl, vacant_row_not_skipped "input.csv" [] [("Name", "Vacant")] none rfl rfl⟩

theorem processRowMd_preserves (inputFile : String) (fs : List (String × String))
    (row : MdRow) (p c : String) (h : List.lookup p fs = some c) :
    List.lookup p (processRowMd inputFile fs row) = some c := by
  unfold processRowMd
  cases (extractNameDistrict inputFile row).1 with
  | none => exact h
  | some n =>
    by_cases hne : n = ""
    · simp only [processRowMdAux, if_pos hne]
      exact h
    · simp only [processRowMdAux, if_neg hne]
      cases hq : List.lookup (String.mk (mdSanitize n.data) ++ ".md") fs with
      | some v => simp only [hq]; exact h
      | none =>
        simp only [hq]
        by_cases hpk : p = String.mk (mdSanitize n.data) ++ ".md"
        · rw [← hpk] at hq
          rw [h] at hq
          exact absurd hq (by simp)
        · simp only [List.lookup]
          rw [beq_false_of_ne hpk]
          exact h

/-- C6: the Markdown generator never overwrites an existing file: any file
present in the output folder before a run of `process_congressional_data`
has identical contents afterwards (a row whose sanitized name collides with
an existing file is skipped by the exists-check, and fresh writes only add
new paths). -/
theorem md_generator_never_overwrites (inputFile : String) (rows : List MdRow)
    (fs : List (String × String)) (p c : String)
    (h : List.lookup p fs = some c) :
    List.lookup p (process_congressional_data inputFile rows fs) = some c := by
  induction rows generalizing fs with
  | nil => exact h
  | cons row rest ih =>
    exact ih (processRowMd inputFile fs row)
      (processRowMd_preserves inputFile fs row p c h)

/-- C6 witness: a pre-existing `X.md` keeps its contents when a row named `X`
is processed again. -/
theorem md_generator_never_overwrites_witness :
    List.lookup "X.md" [("X.md", "old contents")] = some "old contents" ∧
    List.lookup "X.md"
      (process_congressional_data "input.csv" [[("Name", "X")]] [("X.md", "old contents")]) =
      some "old contents" :=
  ⟨rfl, md_generator_never_overwrites "input.csv" [[("Name", "X")]]
    [("X.md", "old contents")] "X.md" "old contents" rfl⟩

theorem le_foldl_max (l : List Nat) (a : Nat) : a ≤ l.foldl max a := by
  induction l generalizing a with
  | nil => exact Nat.le_refl a
  | cons x rest ih => exact Nat.le_trans (Nat.le_max_left a x) (ih (max a x))

theorem mem_le_foldl_max {x : Nat} {l : List Nat} (a : Nat) (hx : x ∈ l) :
    x ≤ l.foldl max a := by
  induction l generalizing a with
  | nil => cases hx
  | cons y rest ih =>
    rcases List.mem_cons.mp hx with rfl | hm
    · exact Nat.le_trans (Nat.le_max_right a x) (le_foldl_max rest (max a x))
    · exact ih (max a y) hm

/-- C2, counterexample to the claim as stated: `migration_000001.py`
initializes both counters to 1 regardless of what is on disk (lines 25-27),
so with `person_000001.json` already present its person counter does not
start strictly above the highest existing person-file number, and its very
first person write reuses the existing filename `person_000001.json`. -/
theorem migration1_reuses_existing_numbers :
    get_last_person_number ["person_000001.json"] = 1 ∧
    ¬ get_last_person_number ["person_000001.json"] < Migration1.initState.personCounter ∧
    (personWrites (Migration1.process_csv
      [{ district := "Alabama 1", name := "Alice", party := "R", personWikiUrl := "",
         voteLakenRiley := "", voteLakenRileyNotes := "", voteLakenRileyPoints := "",
         voteHR1968 := "", vote1968Points := "", sum := "",
         districtWikiUrl := "" }])).map Prod.fst = ["person_000001.json"] := by
  refine ⟨by decide, by decide, ?_⟩
  have hz : zero_pad_number 1 6 = "000001" := by
    unfold zero_pad_number
    have h1 : decDigits 1 = ['1'] := by unfold decDigits; rfl
    rw [h1]
    rfl
  have hz4 : zero_pad_number 1 4 = "0001" := by
    unfold zero_pad_number
    have h1 : decDigits 1 = ['1'] := by unfold decDigits; rfl
    rw [h1]
    rfl
  unfold Migration1.process_csv
  simp only [List.foldl_cons, List.foldl_nil, Migration1.step, Migration1.initState]
  norm_num [hz, hz4, wellFormedRow, personWrites]
  decide

/-- C2 (amended): only `migration_000002.py` resumes its counters from disk;
its person and position counters start strictly above every person-file /
position-file number already present in the output directory
(`migration_000001.py`, by the counterexample, always starts at 1). -/
theorem migration2_counters_resume_above (dir : List String) (f : String) (n : Nat) :
    (f ∈ dir →
      ("person_".data.isPrefixOf f.data && ".json".data.isSuffixOf f.data) = true →
      scanNumber "person_".data ".json".data f.data = some n →
      n < (Migration2.initState dir).personCounter) ∧
    (f ∈ dir →
      (hasSeq "_position_".data f.data && ".json".data.isSuffixOf f.data) = true →
      scanNumber "position_".data ".json".data f.data = some n →
      n < (Migration2.initState dir).positionCounter) := by
  constructor
  · intro hm hg hs
    have hmem : n ∈ (dir.filter (fun f =>
        "person_".data.isPrefixOf f.data && ".json".data.isSuffixOf f.data)).filterMap
        (fun f => scanNumber "person_".data ".json".data f.data) :=
      List.mem_filterMap.mpr ⟨f, List.mem_filter.mpr ⟨hm, hg⟩, hs⟩
    have hb : n ≤ get_last_person_number dir := mem_le_foldl_max 0 hmem
    show n < get_last_person_number dir + 1
    omega
  · intro hm hg hs
    have hmem : n ∈ (dir.filter (fun f =>
        hasSeq "_position_".data f.data && ".json".data.isSuffixOf f.data)).filterMap
        (fun f => scanNumber "position_".data ".json".data f.data) :=
      List.mem_filterMap.mpr ⟨f, List.mem_filter.mpr ⟨hm, hg⟩, hs⟩
    have hb : n ≤ get_last_position_number dir := mem_le_foldl_max 0 hmem
    show n < get_last_position_number dir + 1
    omega

/-- C2 witness: with `person_000001.json` and `senator_position_0003.json` on
disk, migration_000002's counters start above 1 and 3. -/
theorem migration2_counters_resume_above_witness :
    ("person_000001.json" ∈ ["person_000001.json", "senator_position_0003.json"] ∧
      1 < (Migration2.initState ["person_000001.json", "senator_position_0003.json"]).personCounter) ∧
    ("senator_position_0003.json" ∈ ["person_000001.json", "senator_position_0003.json"] ∧
      3 < (Migration2.initState ["person_000001.json", "senator_position_0003.json"]).positionCounter) := by
  constructor
  · exact ⟨by decide,
      (migration2_counters_resume_above ["person_000001.json", "senator_position_0003.json"]
        "person_000001.json" 1).1 (by decide) (by decide) (by decide)⟩
  · exact ⟨by decide,
      (migration2_counters_resume_above ["person_000001.json", "senator_position_0003.json"]
        "senator_position_0003.json" 3).2 (by decide) (by decide) (by decide)⟩

theorem migFold_init_le (files : List String) (a : Nat) :
    a ≤ files.foldl migFoldStep a := by
  induction files generalizing a with
  | nil => exact Nat.le_refl a
  | cons g rest ih =>
    rw [List.foldl_cons]
    refine Nat.le_trans ?_ (ih _)
    unfold migFoldStep
    cases scanNumber "migration_".data ".log".data g.data with
    | none => exact Nat.le_refl a
    | some m => exact Nat.le_max_left a m

theorem migFold_bound {files : List String} {f : String} {n : Nat} (a : Nat)
    (hm : f ∈ files) (hs : scanNumber "migration_".data ".log".data f.data = some n) :
    n ≤ files.foldl migFoldStep a := by
  induction files generalizing a with
  | nil => cases hm
  | cons g rest ih =>
    rw [List.foldl_cons]
    rcases List.mem_cons.mp hm with rfl | hmem
    · refine Nat.le_trans ?_ (migFold_init_le rest _)
      unfold migFoldStep
      rw [hs]
      exact Nat.le_max_right a n
    · exact ih _ hmem

theorem migFold_attain (files : List String) (a : Nat) :
    files.foldl migFoldStep a = a ∨
    ∃ f, f ∈ files ∧ scanNumber "migration_".data ".log".data f.data =
      some (files.foldl migFoldStep a) := by
  induction files generalizing a with
  | nil => exact Or.inl rfl
  | cons g rest ih =>
    rw [List.foldl_cons]
    rcases ih (migFoldStep a g) with h | ⟨f, hf, hs⟩
    · rw [h]
      cases hsg : scanNumber "migration_".data ".log".data g.data with
      | none =>
        have hstep : migFoldStep a g = a := by unfold migFoldStep; rw [hsg]
        rw [hstep]
        exact Or.inl rfl
      | some m =>
        have hstep : migFoldStep a g = max a m := by unfold migFoldStep; rw [hsg]
        rw [hstep]
        rcases Nat.le_total m a with hle | hle
        · rw [Nat.max_eq_left hle]
          exact Or.inl rfl
        · rw [Nat.max_eq_right hle]
          exact Or.inr ⟨g, List.mem_cons_self g rest, hsg⟩
    · exact Or.inr ⟨f, List.mem_cons_of_mem g hf, hs⟩

/-- C9: when the current log file exists, the archiver renames it to
`migration_N.log` with `N` strictly above every number among the existing
archived logs and equal to an existing number plus one (or 1 when the scan
finds nothing, in which case `highestMigrationNumber` is 0), zero-padded to
at least six digits; when the current log file does not exist, nothing is
moved or created. -/
theorem setup_log_directory_spec (logDir : List String) :
    (setup_log_directory false logDir = none) ∧
    (setup_log_directory true logDir =
      some ("migration_" ++
        String.mk (zfill 6 (decDigits (highestMigrationNumber logDir + 1))) ++ ".log")) ∧
    (∀ f n, f ∈ logDir →
      ("migration_".data.isPrefixOf f.data && ".log".data.isSuffixOf f.data) = true →
      scanNumber "migration_".data ".log".data f.data = some n →
      n < highestMigrationNumber logDir + 1) ∧
    (highestMigrationNumber logDir = 0 ∨
      ∃ f, f ∈ logDir ∧
        ("migration_".data.isPrefixOf f.data && ".log".data.isSuffixOf f.data) = true ∧
        scanNumber "migration_".data ".log".data f.data =
          some (highestMigrationNumber logDir)) ∧
    6 ≤ (String.mk (zfill 6 (decDigits (highestMigrationNumber logDir + 1)))).length := by
  refine ⟨rfl, rfl, ?_, ?_, ?_⟩
  · intro f n hm hg hs
    have hb : n ≤ highestMigrationNumber logDir :=
      migFold_bound 0 (List.mem_filter.mpr ⟨hm, hg⟩) hs
    omega
  · rcases migFold_attain (logDir.filter (fun f =>
        "migration_".data.isPrefixOf f.data && ".log".data.isSuffixOf f.data)) 0 with h | ⟨f, hf, hs⟩
    · exact Or.inl h
    · rcases List.mem_filter.mp hf with ⟨hmem, hglob⟩
      exact Or.inr ⟨f, hmem, hglob, hs⟩
  · show 6 ≤ (zfill 6 (decDigits (highestMigrationNumber logDir + 1))).length
    unfold zfill
    rw [List.length_append, List.length_replicate]
    omega

/-- C9 witness: with `migration_000007.log` archived, the source log is
renamed to `migration_000008.log`; with no source log nothing happens. -/
theorem setup_log_directory_spec_witness :
    setup_log_directory false ["migration_000007.log"] = none ∧
    setup_log_directory true ["migration_000007.log"] = some "migration_000008.log" ∧
    7 < highestMigrationNumber ["migration_000007.log"] + 1 := by
  have h := setup_log_directory_spec ["migration_000007.log"]
  have hv : highestMigrationNumber ["migration_000007.log"] = 7 := by decide
  refine ⟨h.1, ?_, ?_⟩
  · rw [h.2.1, hv]
    have h8 : decDigits 8 = ['8'] := by unfold decDigits; rfl
    rw [h8]
    rfl
  · exact h.2.2.1 "migration_000007.log" 7 (by decide) (by decide) (by decide)

/-- C1: for every well-formed CSV row both exporters perform exactly one
position-file write, whose record carries the row's district and district
wiki URL verbatim, and exactly one person-file write when the row's name is
not yet in the `person_files` lookup (none when it is), whose record carries
the row's name, party, wiki URL, votes, points and sum verbatim. -/
theorem exporter_row_contract (st : ExpState) (row : Row)
    (hwf : wellFormedRow row = true) (evs : List WriteEvent)
    (hev : evs = (Migration1.step st row).2 ∨ evs = (Migration2.step st row).2) :
    (∃ f q, positionWrites evs = [(f, q)] ∧
      q.district = row.district ∧ q.district_wiki_url = row.districtWikiUrl) ∧
    (st.personFiles.lookup row.name = none →
      ∃ g p, personWrites evs = [(g, p)] ∧
        p.name = row.name ∧ p.party = row.party ∧
        p.person_wiki_url = row.personWikiUrl ∧
        p.lakenRileyVote = row.voteLakenRiley ∧
        p.lakenRileyNotes = row.voteLakenRileyNotes ∧
        p.lakenRileyPoints = row.voteLakenRileyPoints ∧
        p.hr1968Vote = row.voteHR1968 ∧
        p.hr1968Points = row.vote1968Points ∧
        p.total_points = row.sum) ∧
    ((st.personFiles.lookup row.name).isSome = true → personWrites evs = []) := by
  rcases hev with rfl | rfl
  · cases hl : st.personFiles.lookup row.name with
    | none =>
      have he : (Migration1.step st row).2 =
          [WriteEvent.person ("person_" ++ zero_pad_number st.personCounter 6 ++ ".json")
            (mkPersonData row ("congressional_representative_position_" ++
              zero_pad_number st.positionCounter 4 ++ ".json")),
           WriteEvent.position ("congressional_representative_position_" ++
              zero_pad_number st.positionCounter 4 ++ ".json")
            (mkPositionData row ((row.name,
              "person_" ++ zero_pad_number st.personCounter 6 ++ ".json") :: st.personFiles))] := by
        unfold Migration1.step
        rw [if_pos hwf, hl]
      rw [he]
      refine ⟨⟨_, _, rfl, rfl, rfl⟩, ?_, ?_⟩
      · intro _
        exact ⟨_, _, rfl, rfl, rfl, rfl, rfl, rfl, rfl, rfl, rfl, rfl⟩
      · intro hcontra
        simp at hcontra
    | some v =>
      have he : (Migration1.step st row).2 =
          [WriteEvent.position st.positionFilename (mkPositionData row st.personFiles)] := by
        unfold Migration1.step
        rw [if_pos hwf, hl]
      rw [he]
      refine ⟨⟨_, _, rfl, rfl, rfl⟩, ?_, fun _ => rfl⟩
      intro hcontra
      simp at hcontra
  · cases hl : st.personFiles.lookup row.name with
    | none =>
      have he : (Migration2.step st row).2 =
          [WriteEvent.person ("person_" ++ zero_pad_number st.personCounter 6 ++ ".json")
            (mkPersonData row ("senator_position_" ++
              zero_pad_number st.positionCounter 4 ++ ".json")),
           WriteEvent.position ("senator_position_" ++
              zero_pad_number st.positionCounter 4 ++ ".json")
            (mkPositionData row ((row.name,
              "person_" ++ zero_pad_number st.personCounter 6 ++ ".json") :: st.personFiles))] := by
        unfold Migration2.step
        rw [if_pos hwf, hl]
      rw [he]
      refine ⟨⟨_, _, rfl, rfl, rfl⟩, ?_, ?_⟩
      · intro _
        exact ⟨_, _, rfl, rfl, rfl, rfl, rfl, rfl, rfl, rfl, rfl, rfl⟩
      · intro hcontra
        simp at hcontra
    | some v =>
      have he : (Migration2.step st row).2 =
          [WriteEvent.position ("senator_position_" ++
            zero_pad_number st.positionCounter 4 ++ ".json")
            (mkPositionData row st.personFiles)] := by
        unfold Migration2.step
        rw [if_pos hwf, hl]
      rw [he]
      refine ⟨⟨_, _, rfl, rfl, rfl⟩, ?_, fun _ => rfl⟩
      intro hcontra
      simp at hcontra

/-- C1 witness: a concrete well-formed row against migration_000001's initial
state yields one position write and one person write with the row's fields. -/
theorem exporter_row_contract_witness :
    wellFormedRow ⟨"Alabama 1", "Alice", "R", "https://w", "Yes", "note", "1",
      "No", "0", "1", "https://d"⟩ = true ∧
    (∃ f q, positionWrites (Migration1.step Migration1.initState
        ⟨"Alabama 1", "Alice", "R", "https://w", "Yes", "note", "1",
          "No", "0", "1", "https://d"⟩).2 = [(f, q)] ∧
      q.district = "Alabama 1" ∧ q.district_wiki_url = "https://d") ∧
    (∃ g p, personWrites (Migration1.step Migration1.initState
        ⟨"Alabama 1", "Alice", "R", "https://w", "Yes", "note", "1",
          "No", "0", "1", "https://d"⟩).2 = [(g, p)] ∧
      p.name = "Alice" ∧ p.party = "R" ∧ p.person_wiki_url = "https://w" ∧
      p.lakenRileyVote = "Yes" ∧ p.lakenRileyNotes = "note" ∧ p.lakenRileyPoints = "1" ∧
      p.hr1968Vote = "No" ∧ p.hr1968Points = "0" ∧ p.total_points = "1") := by
  have h := exporter_row_contract Migration1.initState
    ⟨"Alabama 1", "Alice", "R", "https://w", "Yes", "note", "1",
      "No", "0", "1", "https://d"⟩ (by decide)
    (Migration1.step Migration1.initState
      ⟨"Alabama 1", "Alice", "R", "https://w", "Yes", "note", "1",
        "No", "0", "1", "https://d"⟩).2 (Or.inl rfl)
  exact ⟨by decide, h.1, h.2.1 rfl⟩

theorem digitsVal_decDigits (n : Nat) : ∀ a : Nat,
    digitsVal a (decDigits n) = a * 10 ^ (decDigits n).length + n := by
  induction n using Nat.strong_induction_on with
  | _ n ih =>
    intro a
    by_cases h : n < 10
    · rw [decDigits, dif_pos h]
      have hc : (decDigitChar n).toNat = 48 + n := charToNat_ofNat (by omega)
      show (a * 10 + ((decDigitChar n).toNat - 48)) = a * 10 ^ 1 + n
      rw [hc, pow_one]
      omega
    · rw [decDigits, dif_neg h]
      unfold digitsVal
      rw [List.foldl_append]
      have hmod : (decDigitChar (n % 10)).toNat = 48 + n % 10 :=
        charToNat_ofNat (by omega)
      show (List.foldl _ a (decDigits (n / 10))) * 10 + ((decDigitChar (n % 10)).toNat - 48) =
        a * 10 ^ (decDigits (n / 10) ++ [decDigitChar (n % 10)]).length + n
      rw [hmod, List.length_append]
      have hdiv : n / 10 < n := Nat.div_lt_self (by omega) (by omega)
      have hih := ih (n / 10) hdiv a
      unfold digitsVal at hih
      rw [hih]
      show (a * 10 ^ (decDigits (n / 10)).length + n / 10) * 10 + (48 + n % 10 - 48) =
        a * 10 ^ ((decDigits (n / 10)).length + 1) + n
      rw [pow_succ]
      have hassoc : a * (10 ^ (decDigits (n / 10)).length * 10) =
          a * 10 ^ (decDigits (n / 10)).length * 10 := by ring
      rw [hassoc]
      have hnm := Nat.div_add_mod n 10
      generalize a * 10 ^ (decDigits (n / 10)).length = m at *
      omega

theorem decDigits_inj {m n : Nat} (h : decDigits m = decDigits n) : m = n := by
  have hm : digitsVal 0 (decDigits m) = m := by
    have := digitsVal_decDigits m 0
    simpa using this
  have hn : digitsVal 0 (decDigits n) = n := by
    have := digitsVal_decDigits n 0
    simpa using this
  rw [h] at hm
  rw [hn] at hm
  exact hm.symm

theorem decDigits_length_pos (n : Nat) : 0 < (decDigits n).length := by
  rw [decDigits]
  split
  · exact Nat.one_pos
  · rw [List.length_append]
    simp

theorem headshotCandidate_inj (s e : List Char) {j k : Nat}
    (h : headshotCandidate s e j = headshotCandidate s e k) : j = k := by
  match j, k with
  | 0, 0 => rfl
  | 0, k + 1 =>
    exfalso
    have hlen := congrArg List.length h
    simp only [headshotCandidate, List.length_append, List.length_cons] at hlen
    have := decDigits_length_pos (k + 1)
    omega
  | j + 1, 0 =>
    exfalso
    have hlen := congrArg List.length h
    simp only [headshotCandidate, List.length_append, List.length_cons] at hlen
    have := decDigits_length_pos (j + 1)
    omega
  | j + 1, k + 1 =>
    unfold headshotCandidate at h
    have h1 : ('_' :: (decDigits (j + 1) ++ e)) = ('_' :: (decDigits (k + 1) ++ e)) := by
      refine @List.append_cancel_left _ s _ _ ?_
      simpa using h
    have h2 : decDigits (j + 1) ++ e = decDigits (k + 1) ++ e := by
      injection h1
    have h3 : decDigits (j + 1) = decDigits (k + 1) := List.append_cancel_right h2
    have := decDigits_inj h3
    omega

theorem freshLoop_is_candidate (existing : List String) (s e : List Char) :
    ∀ (fuel k : Nat), ∃ j, freshLoop existing s e fuel k = headshotCandidate s e (k + j) := by
  intro fuel
  induction fuel with
  | zero => exact fun k => ⟨0, rfl⟩
  | succ f ih =>
    intro k
    unfold freshLoop
    by_cases hc : existing.contains (String.mk (headshotCandidate s e k)) = true
    · rw [if_pos hc]
      obtain ⟨j, hj⟩ := ih (k + 1)
      refine ⟨j + 1, ?_⟩
      rw [hj]
      congr 1
      omega
    · rw [if_neg hc]
      exact ⟨0, rfl⟩

theorem freshLoop_not_mem (existing : List String) (s e : List Char) :
    ∀ (fuel k : Nat),
      (∃ m, m < fuel ∧ String.mk (headshotCandidate s e (k + m)) ∉ existing) →
      String.mk (freshLoop existing s e fuel k) ∉ existing := by
  intro fuel
  induction fuel with
  | zero =>
    rintro k ⟨m, hm, _⟩
    omega
  | succ f ih =>
    rintro k ⟨m, hm, hfree⟩
    unfold freshLoop
    by_cases hc : existing.contains (String.mk (headshotCandidate s e k)) = true
    · rw [if_pos hc]
      apply ih (k + 1)
      cases m with
      | zero =>
        exfalso
        exact hfree (List.elem_iff.mp hc)
      | succ m2 =>
        refine ⟨m2, by omega, ?_⟩
        have harith : k + 1 + m2 = k + (m2 + 1) := by omega
        rw [harith]
        exact hfree
    · rw [if_neg hc]
      intro hmem
      exact hc (List.elem_iff.mpr hmem)

theorem exists_fresh_candidate (existing : List String) (s e : List Char) :
    ∃ m, m ≤ existing.length ∧ String.mk (headshotCandidate s e m) ∉ existing := by
  by_contra hcon
  push_neg at hcon
  have hinj : Function.Injective (fun m => String.mk (headshotCandidate s e m)) := by
    intro x y hxy
    have hd : headshotCandidate s e x = headshotCandidate s e y :=
      congrArg String.data hxy
    exact headshotCandidate_inj s e hd
  have hnd : ((List.range (existing.length + 1)).map
      (fun m => String.mk (headshotCandidate s e m))).Nodup :=
    List.Nodup.map hinj (List.nodup_range _)
  have hsub : ((List.range (existing.length + 1)).map
      (fun m => String.mk (headshotCandidate s e m))) ⊆ existing := by
    intro x hx
    rcases List.mem_map.mp hx with ⟨m, hmr, rfl⟩
    exact hcon m (by have := List.mem_range.mp hmr; omega)
  have hle := (List.subperm_of_subset hnd hsub).length_le
  simp only [List.length_map, List.length_range] at hle
  omega

/-- C8: on a successful request for a nonempty URL, the downloader saves to a
filename that (a) it returns, (b) is not among the existing files (never
overwriting), (c) is one of the candidates built from the sanitized person
name plus the URL-path extension — `.jpg` when that extension is empty or
longer than five characters — either plain or with a numeric `_k` suffix,
and (d) is the plain un-suffixed name whenever that name is free. -/
theorem download_headshot_spec (url person_name : String) (existing : List String)
    (hurl : url ≠ "") :
    ∃ fn : String,
      download_headshot (Except.ok ()) url person_name existing = some fn ∧
      fn ∉ existing ∧
      (∃ k, fn.data = headshotCandidate (safeName person_name.data)
        (if pySplitextExt (urlPath url) = "" || 5 < (pySplitextExt (urlPath url)).length
         then ".jpg".data else (pySplitextExt (urlPath url)).data) k) ∧
      (String.mk (headshotCandidate (safeName person_name.data)
          (if pySplitextExt (urlPath url) = "" || 5 < (pySplitextExt (urlPath url)).length
           then ".jpg".data else (pySplitextExt (urlPath url)).data) 0) ∉ existing →
        fn = String.mk (headshotCandidate (safeName person_name.data)
          (if pySplitextExt (urlPath url) = "" || 5 < (pySplitextExt (urlPath url)).length
           then ".jpg".data else (pySplitextExt (urlPath url)).data) 0)) := by
  have hdl : download_headshot (Except.ok ()) url person_name existing =
      some (String.mk (freshLoop existing (safeName person_name.data)
        (if pySplitextExt (urlPath url) = "" || 5 < (pySplitextExt (urlPath url)).length
         then ".jpg".data else (pySplitextExt (urlPath url)).data)
        (existing.length + 1) 0)) := by
    unfold download_headshot
    rw [if_neg hurl]
  refine ⟨_, hdl, ?_, ?_, ?_⟩
  · apply freshLoop_not_mem
    obtain ⟨m, hm, hfree⟩ := exists_fresh_candidate existing (safeName person_name.data)
      (if pySplitextExt (urlPath url) = "" || 5 < (pySplitextExt (urlPath url)).length
       then ".jpg".data else (pySplitextExt (urlPath url)).data)
    exact ⟨m, by omega, by rw [Nat.zero_add]; exact hfree⟩
  · obtain ⟨j, hj⟩ := freshLoop_is_candidate existing (safeName person_name.data)
      (if pySplitextExt (urlPath url) = "" || 5 < (pySplitextExt (urlPath url)).length
       then ".jpg".data else (pySplitextExt (urlPath url)).data) (existing.length + 1) 0
    exact ⟨0 + j, hj⟩
  · intro h0
    have hc : ¬ existing.contains (String.mk (headshotCandidate (safeName person_name.data)
        (if pySplitextExt (urlPath url) = "" || 5 < (pySplitextExt (urlPath url)).length
         then ".jpg".data else (pySplitextExt (urlPath url)).data) 0)) = true :=
      fun hcc => h0 (List.elem_iff.mp hcc)
    show String.mk (freshLoop existing (safeName person_name.data) _
      (existing.length + 1) 0) = _
    unfold freshLoop
    rw [if_neg hc]

/-- C8 witness: with `john_smith.jpg` already on disk, downloading a `.jpg`
URL for John Smith saves to a fresh filename. -/
theorem download_headshot_spec_witness :
    ∃ fn : String,
      download_headshot (Except.ok ()) "https://upload.wikimedia.org/a/ab/Foo.jpg"
        "John Smith" ["john_smith.jpg"] = some fn ∧ fn ∉ ["john_smith.jpg"] := by
  obtain ⟨fn, h1, h2, _, _⟩ := download_headshot_spec
    "https://upload.wikimedia.org/a/ab/Foo.jpg" "John Smith" ["john_smith.jpg"] (by decide)
  exact ⟨fn, h1, h2⟩
